import Mathlib

/-!
Verification of the speech-metrics analysis engine of the SpeechBot
repository (src/bot.py).  Pure functions of the source are embedded as
executable Lean definitions over `ℚ` (machine floats are modelled as exact
rationals) and `List`/`String` data.  External collaborators (the Telegram
framework, the transcription pipeline, the recommendation model, and the
librosa signal-processing primitives other than the ones re-derived below)
are modelled as explicit inputs to the embedded functions.
-/

set_option maxRecDepth 4000

namespace SpeechBot

/-- Lower-casing of one character as Python `str.lower` does on the
alphabets this program uses: ASCII letters and the Cyrillic block
(`А`–`Я` maps to `а`–`я`, `Ё` to `ё`). -/
def lowerChar (c : Char) : Char :=
  if 'А' ≤ c ∧ c ≤ 'Я' then Char.ofNat (c.toNat + 32)
  else if c = 'Ё' then 'ё'
  else c.toLower

/-- Python `text.lower()` restricted to the Latin and Cyrillic alphabets. -/
def pyLower (s : String) : String :=
  String.mk (s.data.map lowerChar)

/-- A word character in the sense of the regex `\w` for the alphabets this
program uses: ASCII alphanumerics, underscore, and Cyrillic letters. -/
def isWordChar (c : Char) : Bool :=
  c.isAlphanum || c = '_' ||
    (('а' ≤ c && c ≤ 'я') || ('А' ≤ c && c ≤ 'Я') || c = 'ё' || c = 'Ё')

/-- Split a character list into the maximal runs of characters satisfying
`p`; the accumulator holds the current run reversed.  This is the shape of
both `re.findall(r"\b\w+\b", text)` (with `p = isWordChar`) and Python
`str.split()` (with `p` = not-whitespace). -/
def splitRuns (p : Char → Bool) : List Char → List Char → List String
  | [], acc => if acc = [] then [] else [String.mk acc.reverse]
  | c :: cs, acc =>
      if p c then splitRuns p cs (c :: acc)
      else (if acc = [] then [] else [String.mk acc.reverse]) ++ splitRuns p cs []

/-- The token list `re.findall(r"\b\w+\b", text)`: maximal runs of word
characters. -/
def wordTokens (s : String) : List String :=
  splitRuns isWordChar s.data []

/-- Python `s.split()`: maximal runs of non-whitespace characters. -/
def pySplit (s : String) : List String :=
  splitRuns (fun c => !c.isWhitespace) s.data []

/-- The Russian filler vocabulary `FILLERS_RU` of src/utils.py, verbatim. -/
def FILLERS_RU : List String := [
  "ну", "типа", "короче", "в общем", "как бы", "значит", "понимаешь", "вроде", "собственно", "это самое",
  "вообще", "ещё", "просто", "например", "я думаю", "знаешь", "ладно", "вот", "так сказать", "сразу",
  "кажется", "так", "эх", "короче говоря", "между прочим", "по сути", "как правило", "в итоге",
  "в принципе", "честно говоря", "на самом деле", "прямо", "ну вот", "кстати", "при этом",
  "если честно", "как ни странно", "пожалуй", "типа того", "так вот", "в общем-то", "сильно", "пожалуйста",
  "эээ", "эмм", "ммм", "ах", "ой", "угу", "ээ…", "эмм…", "мм…", "ах…", "ох", "эх…", "мм-хм", "ааа"]

/-- The English filler vocabulary `FILLERS_EN` of src/utils.py, verbatim. -/
def FILLERS_EN : List String := [
  "um", "uh", "like", "you know", "basically", "actually", "literally", "sort of", "kind of", "i mean",
  "right", "okay", "well", "so", "anyway", "honestly", "seriously", "obviously", "definitely", "totally",
  "really", "just", "maybe", "perhaps", "probably", "essentially", "practically", "virtually", "generally",
  "apparently", "supposedly", "presumably", "allegedly", "hmm", "err", "ah", "oh", "yeah", "yep", "nah"]

/-- Python dict update `m[w] = m.get(w, 0) + 1`: increment the count of `w`
in place if present (dict iteration order is insertion order), else append
it with count 1. -/
def bumpCount : List (String × ℕ) → String → List (String × ℕ)
  | [], w => [(w, 1)]
  | (k, c) :: rest, w =>
      if k = w then (k, c + 1) :: rest else (k, c) :: bumpCount rest w

/-- The `count_fillers` function of src/bot.py: lower-case the text,
tokenize on word boundaries, count the tokens that belong to the filler
vocabulary of the language (`FILLERS_RU` for "ru", `FILLERS_EN`
otherwise), and return the total together with the per-token breakdown. -/
def count_fillers (text : String) (lang : String) : ℕ × List (String × ℕ) :=
  let fillers := if lang = "ru" then FILLERS_RU else FILLERS_EN
  let words := wordTokens (pyLower text)
  let filler_details :=
    words.foldl (fun m w => if w ∈ fillers then bumpCount m w else m) []
  ((filler_details.map Prod.snd).sum, filler_details)

/-- Rounding of a rational to the nearest integer as Python `round` does:
ties go to the even integer. -/
def roundHalfEven (x : ℚ) : ℤ :=
  if x - (⌊x⌋ : ℚ) < 1/2 then ⌊x⌋
  else if 1/2 < x - (⌊x⌋ : ℚ) then ⌊x⌋ + 1
  else if ⌊x⌋ % 2 = 0 then ⌊x⌋ else ⌊x⌋ + 1

/-- Python `round(x, k)` on rationals. -/
def pyRound (x : ℚ) (k : ℕ) : ℚ :=
  (roundHalfEven (x * 10 ^ k) : ℚ) / 10 ^ k

/-- `OPTIMAL_WPM_MIN` of src/bot.py. -/
def OPTIMAL_WPM_MIN : ℚ := 120

/-- `OPTIMAL_WPM_MAX` of src/bot.py. -/
def OPTIMAL_WPM_MAX : ℚ := 150

/-- The tempo classification of `analyze_speech` (src/bot.py lines
186-197): "optimal" when `OPTIMAL_WPM_MIN <= wpm <= OPTIMAL_WPM_MAX`,
else "too slow" when `wpm < OPTIMAL_WPM_MIN`, else "too fast"; the label
text depends on the language, the cutoffs do not. -/
def tempoRating (lang : String) (wpm : ℚ) : String :=
  if lang = "en" then
    if OPTIMAL_WPM_MIN ≤ wpm ∧ wpm ≤ OPTIMAL_WPM_MAX then "optimal"
    else if wpm < OPTIMAL_WPM_MIN then "too slow"
    else "too fast"
  else
    if OPTIMAL_WPM_MIN ≤ wpm ∧ wpm ≤ OPTIMAL_WPM_MAX then "оптимальный"
    else if wpm < OPTIMAL_WPM_MIN then "слишком медленный"
    else "слишком быстрый"

/-- The monotony classification of `analyze_prosody` (src/bot.py lines
143-159) as a function of the pitch variance; the pitch-contour
extraction feeding it (librosa piptrack and harmonic smoothing followed
by a standard deviation) is an external numeric collaborator and is
modelled by the `pitch_var` argument. -/
def monotonyLabel (lang : String) (pitch_var : ℚ) : String :=
  if lang = "en" then
    if 60 < pitch_var then "very low (lively sound)"
    else if 30 < pitch_var then "moderate"
    else "high (monotonous)"
  else
    if 60 < pitch_var then "очень низкая (живое звучание)"
    else if 30 < pitch_var then "умеренная"
    else "высокая (монотонно)"

/-- The volume-dynamics classification of `analyze_prosody` (src/bot.py
lines 149-164) as a function of the energy variance (standard deviation
of the frame RMS energies, an external numeric input). -/
def dynamicsLabel (lang : String) (energy_var : ℚ) : String :=
  if lang = "en" then
    if 3/100 < energy_var then "pronounced dynamics"
    else if 3/200 < energy_var then "medium dynamics"
    else "flat (almost no volume changes)"
  else
    if 3/100 < energy_var then "ярко выраженная динамика"
    else if 3/200 < energy_var then "средняя динамика"
    else "плоская (почти нет изменений громкости)"

/-- Squared short-time RMS energies of a waveform, frame length 2048, hop
512, centred zero padding: the frame energies computed by the external
`librosa.feature.rms` call in `detect_pauses`, except that each value is
the square of the value librosa reports (the mean of squares instead of
its square root, which is irrational in general).  `detect_pauses` uses
the energies only through comparisons `energy < threshold` where
`threshold` is a percentile of the same energies: each compared value is
one of the data points, the interpolation weight of the percentile
depends only on the number of frames, and squaring is strictly monotone
on the non-negative energies, so the set of silent frames — and with it
everything `detect_pauses` returns — is identical for the squared and the
original energies. -/
def rmsSq (y : List ℚ) : List ℚ :=
  (List.range (1 + y.length / 512)).map
    (fun i =>
      ((((List.replicate 1024 (0 : ℚ) ++ y ++ List.replicate 1024 (0 : ℚ)).drop
            (512 * i)).take 2048).map (fun x => x * x)).foldl (· + ·) 0 / 2048)

/-- Insert a value into an ascending list, keeping it ascending. -/
def insertSorted (x : ℚ) : List ℚ → List ℚ
  | [] => [x]
  | y :: ys => if x ≤ y then x :: y :: ys else y :: insertSorted x ys

/-- Ascending insertion sort, the model of `np.sort`. -/
def sortAsc (l : List ℚ) : List ℚ :=
  l.foldr insertSorted []

/-- `np.percentile(l, 15)` with the default linear interpolation: with
`n` data points sorted ascending, the value at fractional position
`15 * (n - 1) / 100`. -/
def percentile15 (l : List ℚ) : ℚ :=
  (sortAsc l).getD (15 * (l.length - 1) / 100) 0 +
    (15 * ((l.length : ℚ) - 1) / 100 - ((15 * (l.length - 1) / 100 : ℕ) : ℚ)) *
      ((sortAsc l).getD (15 * (l.length - 1) / 100 + 1) 0 -
        (sortAsc l).getD (15 * (l.length - 1) / 100) 0)

/-- `np.where(energy < threshold)[0]` with the dynamic threshold of
`detect_pauses` (src/bot.py lines 229-230): the frame indices, in
ascending order, whose energy is strictly below the 15th percentile of
all frame energies. -/
def silenceFrames (energy : List ℚ) : List ℕ :=
  (List.range energy.length).filter
    (fun i => decide (energy.getD i 0 < percentile15 energy))

/-- The loop of `detect_pauses` (src/bot.py lines 236-250) over the
remaining silent-frame indices, carrying the first (`start`) and previous
(`prev`) index of the current run: a gap of more than one frame index
closes the run, and a closed run is kept when `(prev - start) *
frame_duration` exceeds 0.25 seconds; the final run is closed and kept
under the same rule. -/
def pausesLoop (fd : ℚ) : ℕ → ℕ → List ℕ → List ℚ
  | start, prev, [] =>
      if 1/4 < ((prev - start : ℕ) : ℚ) * fd then [((prev - start : ℕ) : ℚ) * fd] else []
  | start, prev, f :: rest =>
      if 1 < f - prev then
        (if 1/4 < ((prev - start : ℕ) : ℚ) * fd then [((prev - start : ℕ) : ℚ) * fd] else [])
          ++ pausesLoop fd f f rest
      else
        pausesLoop fd start f rest

/-- The `detect_pauses` function of src/bot.py (lines 223-252) given the
frame energies: empty when no frame is silent, otherwise the run loop
seeded with the first silent frame.  The frame duration is
`hop / sr = 512 / sr`. -/
def detect_pauses_energy (energy : List ℚ) (sr : ℚ) : List ℚ :=
  match silenceFrames energy with
  | [] => []
  | s :: rest => pausesLoop (512 / sr) s s rest

/-- The `detect_pauses` function of src/bot.py on a waveform: frame
energies from the (squared) RMS front end, then the silent-run scan. -/
def detect_pauses (y : List ℚ) (sr : ℚ) : List ℚ :=
  detect_pauses_energy (rmsSq y) sr

/-- Lengths of the maximal runs of consecutive indices in the remaining
list, carrying the run in progress.  Spec-side companion of `pausesLoop`
(a run of frames `start..prev` has `prev - start + 1` frames), used to
state the specification claim about run lengths. -/
def runsLoop : ℕ → ℕ → List ℕ → List ℕ
  | start, prev, [] => [prev - start + 1]
  | start, prev, f :: rest =>
      if 1 < f - prev then (prev - start + 1) :: runsLoop f f rest
      else runsLoop start f rest

/-- Lengths of the maximal runs of consecutive indices (a gap of more
than 1 breaks a run), spec-side. -/
def runLengths : List ℕ → List ℕ
  | [] => []
  | s :: rest => runsLoop s s rest

/-- The short-pause bucket of `analyze_speech` (src/bot.py line 201):
`sum(1 for p in pauses if 0.3 <= p <= 1.0)`. -/
def shortPauseCount (pauses : List ℚ) : ℕ :=
  pauses.countP (fun p => decide (3/10 ≤ p ∧ p ≤ 1))

/-- The long-pause bucket of `analyze_speech` (src/bot.py line 202):
`sum(1 for p in pauses if p > 1.5)`. -/
def longPauseCount (pauses : List ℚ) : ℕ :=
  pauses.countP (fun p => decide (3/2 < p))

/-- `librosa.get_duration(y=y, sr=sr)` for the waveform loaded at
16 kHz: number of samples over the sample rate. -/
def speechDuration (y : List ℚ) : ℚ :=
  (y.length : ℚ) / 16000

/-- The analysis record returned by `analyze_speech` (src/bot.py lines
210-220), without the nested prosody profile (whose numeric inputs are
external, see `monotonyLabel` and `dynamicsLabel`). -/
structure SpeechAnalysis where
  duration_sec : ℚ
  word_count : ℕ
  words_per_minute : ℚ
  tempo_rating : String
  short_pauses : ℕ
  long_pauses : ℕ
  fillers_count : ℕ
  filler_details : List (String × ℕ)

/-- The `analyze_speech` function of src/bot.py (lines 176-220) on the
loaded waveform `y` (16 kHz mono) and the recognized transcript:
duration from the waveform length, word count by the `\b\w+\b`
tokenizer, words per minute `len(words) / (duration / 60)` guarded by
`duration > 0`, tempo rating, pause buckets over `detect_pauses`, and
filler counts. -/
def analyze_speech (y : List ℚ) (text : String) (lang : String) : SpeechAnalysis :=
  let duration := speechDuration y
  let words := wordTokens text
  let wpm : ℚ := if 0 < duration then (words.length : ℚ) / (duration / 60) else 0
  let pauses := detect_pauses y 16000
  let fc := count_fillers text lang
  { duration_sec := pyRound duration 2
    word_count := words.length
    words_per_minute := pyRound wpm 1
    tempo_rating := tempoRating lang wpm
    short_pauses := shortPauseCount pauses
    long_pauses := longPauseCount pauses
    fillers_count := fc.1
    filler_details := fc.2 }

/-- The report returned by `analyze_text_quality` (src/bot.py lines
271-276). -/
structure TextQuality where
  sentence_count : ℕ
  avg_sentence_length : ℚ
  long_sentences : List String
  repetitions : List (String × ℕ)

/-- The word-repetition map of `analyze_text_quality` (src/bot.py lines
264-269): counts of the lower-cased word tokens longer than 4
characters, restricted to those occurring at least 3 times. -/
def repetitionCounts (text : String) : List (String × ℕ) :=
  ((wordTokens (pyLower text)).foldl
      (fun m w => if 4 < w.length then bumpCount m w else m) []).filter
    (fun kv => decide (3 ≤ kv.2))

/-- The `analyze_text_quality` function of src/bot.py (lines 255-276).
Sentence segmentation is performed by the external `nltk.sent_tokenize`
call; its output is the `sentences` argument.  A sentence is over-long
when `len(s.split()) > 20`, and it is kept verbatim. -/
def analyze_text_quality (sentences : List String) (text : String) : TextQuality :=
  { sentence_count := sentences.length
    avg_sentence_length :=
      if sentences.isEmpty then 0
      else ((sentences.map (fun s => ((pySplit s).length : ℚ))).sum) / (sentences.length : ℚ)
    long_sentences := sentences.filter (fun s => decide (20 < (pySplit s).length))
    repetitions := repetitionCounts text }

/-- One entry of `analyses_history` in `update_user_stats` (src/bot.py
lines 462-467). -/
structure HistoryEntry where
  date : String
  wpm : ℚ
  fillers : ℕ
  duration : ℚ

/-- Per-user statistics record of `user_stats` (src/bot.py lines
446-453). -/
structure UserStats where
  total_analyses : ℕ
  total_wpm : ℚ
  total_fillers : ℕ
  last_analysis_date : Option String
  analyses_history : List HistoryEntry

/-- The fresh record inserted for a user not yet in `user_stats`. -/
def initUserStats : UserStats :=
  { total_analyses := 0
    total_wpm := 0
    total_fillers := 0
    last_analysis_date := none
    analyses_history := [] }

/-- The `user_stats` store: Python dict from user id to stats record,
modelled as a map into `Option UserStats` (absent keys map to `none`). -/
def StatsStore : Type := ℕ → Option UserStats

/-- The `update_user_stats` function of src/bot.py (lines 444-469):
initialize the entry of `user_id` when absent, then increment the
totals, stamp the date (the `datetime.now()` string is the external
input `now`), append the history entry, and evict the oldest entry when
the history exceeds 10. -/
def update_user_stats (store : StatsStore) (user_id : ℕ)
    (analysis : SpeechAnalysis) (now : String) : StatsStore :=
  let stats := (store user_id).getD initUserStats
  let hist := stats.analyses_history ++
    [{ date := now
       wpm := analysis.words_per_minute
       fillers := analysis.fillers_count
       duration := analysis.duration_sec }]
  let stats1 : UserStats :=
    { total_analyses := stats.total_analyses + 1
      total_wpm := stats.total_wpm + analysis.words_per_minute
      total_fillers := stats.total_fillers + analysis.fillers_count
      last_analysis_date := some now
      analyses_history := if 10 < hist.length then hist.drop 1 else hist }
  fun v => if v = user_id then some stats1 else store v

/-- The concrete 3584-sample waveform used to exercise `detect_pauses`:
512 loud samples, 2560 silent samples, 512 loud samples.  With frame
length 2048, hop 512 and centred padding its 8 squared frame energies
are `[1/4, 1/4, 1/4, 0, 0, 1/4, 1/4, 1/4]`, the 15th percentile is
`1/80`, and frames 3 and 4 form one maximal silent run of 2 frames. -/
def yRun : List ℚ :=
  List.replicate 512 1 ++ List.replicate 2560 0 ++ List.replicate 512 1

/-- A concrete sentence of 25 words. -/
def sentence25 : String := String.intercalate " " (List.replicate 25 "w")

/-- A concrete sentence of 20 words. -/
def sentence20 : String := String.intercalate " " (List.replicate 20 "w")

/-! ### Helper lemmas -/

theorem foldl_add_replicate (n : ℕ) (c : ℚ) : ∀ a : ℚ,
    (List.replicate n c).foldl (· + ·) a = a + n * c := by
  induction n with
  | zero => intro a; simp
  | succ m ih =>
      intro a
      rw [List.replicate_succ, List.foldl_cons, ih]
      push_cast
      ring

theorem roundHalfEven_nonneg {x : ℚ} (hx : 0 ≤ x) : 0 ≤ roundHalfEven x := by
  have h0 : (0 : ℤ) ≤ ⌊x⌋ := Int.floor_nonneg.mpr hx
  unfold roundHalfEven
  split
  · exact h0
  · split
    · omega
    · split <;> omega

theorem pyRound_nonneg {x : ℚ} (hx : 0 ≤ x) (k : ℕ) : 0 ≤ pyRound x k := by
  unfold pyRound
  have h1 : (0:ℚ) ≤ (roundHalfEven (x * 10 ^ k) : ℚ) := by
    exact_mod_cast roundHalfEven_nonneg (by positivity)
  positivity

theorem roundHalfEven_zero : roundHalfEven 0 = 0 := by
  unfold roundHalfEven
  norm_num

theorem pyRound_zero (k : ℕ) : pyRound 0 k = 0 := by
  unfold pyRound
  rw [zero_mul, roundHalfEven_zero]
  norm_num

theorem getD_replicate (a d : ℚ) : ∀ n i : ℕ,
    (List.replicate n a).getD i d = if i < n then a else d
  | 0, _ => by simp
  | (m + 1), 0 => by simp [List.replicate_succ]
  | (m + 1), (j + 1) => by
      rw [List.replicate_succ, List.getD_cons_succ, getD_replicate a d m j]
      simp [Nat.succ_lt_succ_iff]

theorem sortAsc_replicate (c : ℚ) : ∀ n : ℕ,
    sortAsc (List.replicate n c) = List.replicate n c := by
  intro n
  induction n with
  | zero => rfl
  | succ m ih =>
      rw [List.replicate_succ]
      show insertSorted c (sortAsc (List.replicate m c)) = _
      rw [ih]
      cases m with
      | zero => rfl
      | succ j => rw [List.replicate_succ, insertSorted, if_pos le_rfl]

theorem percentile15_replicate (c : ℚ) (n : ℕ) (hn : 1 ≤ n) :
    percentile15 (List.replicate n c) = c := by
  obtain ⟨m, rfl⟩ : ∃ m, n = m + 1 := ⟨n - 1, by omega⟩
  unfold percentile15
  rw [sortAsc_replicate, List.length_replicate, getD_replicate, getD_replicate]
  rcases Nat.eq_zero_or_pos m with hm | hm
  · subst hm
    norm_num
  · have hi : 15 * (m + 1 - 1) / 100 < m := by omega
    rw [if_pos (by omega), if_pos (by omega)]
    ring

theorem silenceFrames_replicate (c : ℚ) (n : ℕ) :
    silenceFrames (List.replicate n c) = [] := by
  rcases Nat.eq_zero_or_pos n with hn | hn
  · subst hn; rfl
  · simp only [silenceFrames, percentile15_replicate c n hn, List.length_replicate]
    refine List.filter_eq_nil_iff.mpr ?_
    intro i hi
    simp [getD_replicate, List.mem_range.mp hi]

theorem detect_pauses_energy_replicate (c : ℚ) (n : ℕ) (sr : ℚ) :
    detect_pauses_energy (List.replicate n c) sr = [] := by
  unfold detect_pauses_energy
  rw [silenceFrames_replicate]

theorem rmsSq_replicate_zero (n : ℕ) :
    rmsSq (List.replicate n (0 : ℚ)) = List.replicate (1 + n / 512) 0 := by
  unfold rmsSq
  rw [← List.replicate_add, ← List.replicate_add, List.length_replicate]
  simp only [List.drop_replicate, List.take_replicate, List.map_replicate,
    mul_zero, foldl_add_replicate, add_zero, zero_div]
  rw [List.map_const', List.length_range]

theorem detect_pauses_replicate_zero (n : ℕ) (sr : ℚ) :
    detect_pauses (List.replicate n (0 : ℚ)) sr = [] := by
  unfold detect_pauses
  rw [rmsSq_replicate_zero, detect_pauses_energy_replicate]

theorem pausesLoop_eq_runsLoop (fd : ℚ) : ∀ (l : List ℕ) (start prev : ℕ),
    pausesLoop fd start prev l =
      (runsLoop start prev l).filterMap
        (fun L => if 1/4 < ((L - 1 : ℕ) : ℚ) * fd then some (((L - 1 : ℕ) : ℚ) * fd) else none)
  | [], start, prev => by
      simp only [pausesLoop, runsLoop, List.filterMap, Nat.add_sub_cancel]
      split <;> simp
  | f :: rest, start, prev => by
      simp only [pausesLoop, runsLoop]
      split
      · rw [List.filterMap_cons, pausesLoop_eq_runsLoop fd rest f f]
        simp only [Nat.add_sub_cancel]
        split <;> simp
      · exact pausesLoop_eq_runsLoop fd rest start f

theorem runsLoop_mem_pos : ∀ (l : List ℕ) (start prev L : ℕ),
    L ∈ runsLoop start prev l → 1 ≤ L
  | [], start, prev, L => by
      simp only [runsLoop, List.mem_singleton]
      omega
  | f :: rest, start, prev, L => by
      simp only [runsLoop]
      split
      · intro h
        rcases List.mem_cons.mp h with h1 | h2
        · omega
        · exact runsLoop_mem_pos rest f f L h2
      · exact runsLoop_mem_pos rest start f L

set_option maxHeartbeats 2000000 in
theorem rmsSq_yRun : rmsSq yRun = [1/4, 1/4, 1/4, 0, 0, 1/4, 1/4, 1/4] := by
  norm_num [rmsSq, yRun, List.range_succ, List.drop_append_eq_append_drop,
    List.take_append_eq_append_take, List.take_replicate, List.drop_replicate,
    List.map_replicate, List.foldl_append, foldl_add_replicate,
    List.length_append, List.length_replicate]

theorem silenceFrames_yRun : silenceFrames (rmsSq yRun) = [3, 4] := by
  rw [rmsSq_yRun]
  norm_num [silenceFrames, percentile15, sortAsc, insertSorted, List.filter, List.range_succ]

theorem detect_pauses_energy_eq_cons (energy : List ℚ) (sr : ℚ) {s : ℕ} {rest : List ℕ}
    (h : silenceFrames energy = s :: rest) :
    detect_pauses_energy energy sr = pausesLoop (512 / sr) s s rest := by
  unfold detect_pauses_energy
  rw [h]

theorem detect_pauses_yRun : detect_pauses yRun 512 = [1] := by
  rw [detect_pauses, detect_pauses_energy_eq_cons (rmsSq yRun) 512 silenceFrames_yRun]
  norm_num [pausesLoop]

theorem runLengths_yRun : runLengths (silenceFrames (rmsSq yRun)) = [2] := by
  rw [silenceFrames_yRun]
  rfl

theorem detect_pauses_energy_eq_nil (energy : List ℚ) (sr : ℚ)
    (h : silenceFrames energy = []) : detect_pauses_energy energy sr = [] := by
  unfold detect_pauses_energy
  rw [h]

theorem band_label_iff (lo hi v : ℚ) (L1 L2 L3 : String)
    (hlh : lo ≤ hi) (h12 : L1 ≠ L2) (h13 : L1 ≠ L3) (h23 : L2 ≠ L3) :
    ((if lo ≤ v ∧ v ≤ hi then L1 else if v < lo then L2 else L3) = L1 ↔ lo ≤ v ∧ v ≤ hi) ∧
    ((if lo ≤ v ∧ v ≤ hi then L1 else if v < lo then L2 else L3) = L2 ↔ v < lo) ∧
    ((if lo ≤ v ∧ v ≤ hi then L1 else if v < lo then L2 else L3) = L3 ↔ hi < v) := by
  refine ⟨?_, ?_, ?_⟩
  · split_ifs with h1 h2
    · exact iff_of_true rfl h1
    · exact iff_of_false (fun he => h12 he.symm) h1
    · exact iff_of_false (fun he => h13 he.symm) h1
  · split_ifs with h1 h2
    · exact iff_of_false h12 (not_lt.mpr h1.1)
    · exact iff_of_true rfl h2
    · exact iff_of_false (fun he => h23 he.symm) h2
  · split_ifs with h1 h2
    · exact iff_of_false h13 (not_lt.mpr h1.2)
    · exact iff_of_false h23 (by intro hc; linarith)
    · refine iff_of_true rfl ?_
      push_neg at h1
      exact h1 (not_lt.mp h2)

theorem stacked_label_iff (a b v : ℚ) (L1 L2 L3 : String)
    (hab : b < a) (h12 : L1 ≠ L2) (h13 : L1 ≠ L3) (h23 : L2 ≠ L3) :
    ((if a < v then L1 else if b < v then L2 else L3) = L1 ↔ a < v) ∧
    ((if a < v then L1 else if b < v then L2 else L3) = L2 ↔ b < v ∧ v ≤ a) ∧
    ((if a < v then L1 else if b < v then L2 else L3) = L3 ↔ v ≤ b) := by
  refine ⟨?_, ?_, ?_⟩
  · split_ifs with h1 h2
    · exact iff_of_true rfl h1
    · exact iff_of_false (fun he => h12 he.symm) h1
    · exact iff_of_false (fun he => h13 he.symm) h1
  · split_ifs with h1 h2
    · exact iff_of_false h12 (by rintro ⟨h3, h4⟩; linarith)
    · exact iff_of_true rfl ⟨h2, not_lt.mp h1⟩
    · exact iff_of_false (fun he => h23 he.symm) (fun hc => h2 hc.1)
  · split_ifs with h1 h2
    · exact iff_of_false h13 (by intro hc; linarith)
    · exact iff_of_false h23 (by intro hc; linarith)
    · exact iff_of_true rfl (not_lt.mp h2)

/-! ### Claim theorems -/

/-- C2: for every transcript and both supported languages, the total
filler count returned by `count_fillers` equals the sum of the per-token
counts in the breakdown it returns. -/
theorem count_fillers_total_eq_sum (text lang : String) :
    (count_fillers text lang).1 = ((count_fillers text lang).2.map Prod.snd).sum := rfl

/-- C3: the tempo rating used by `analyze_speech` is the optimal label
exactly when 120 and 150 bound the wpm inclusively, the slow label exactly
when wpm is below 120, the fast label exactly when wpm is above 150, with
the boundary values 120 and 150 classified optimal, in both languages. -/
theorem tempo_rating_boundaries (w : ℚ) :
    ((tempoRating "en" w = "optimal" ↔ 120 ≤ w ∧ w ≤ 150) ∧
     (tempoRating "en" w = "too slow" ↔ w < 120) ∧
     (tempoRating "en" w = "too fast" ↔ 150 < w)) ∧
    ((tempoRating "ru" w = "оптимальный" ↔ 120 ≤ w ∧ w ≤ 150) ∧
     (tempoRating "ru" w = "слишком медленный" ↔ w < 120) ∧
     (tempoRating "ru" w = "слишком быстрый" ↔ 150 < w)) ∧
    tempoRating "en" 120 = "optimal" ∧ tempoRating "en" 150 = "optimal" ∧
    tempoRating "ru" 120 = "оптимальный" ∧ tempoRating "ru" 150 = "оптимальный" := by
  have e_en : ∀ v : ℚ, tempoRating "en" v =
      if (120:ℚ) ≤ v ∧ v ≤ 150 then "optimal" else if v < 120 then "too slow" else "too fast" := by
    intro v
    simp [tempoRating, OPTIMAL_WPM_MIN, OPTIMAL_WPM_MAX]
  have e_ru : ∀ v : ℚ, tempoRating "ru" v =
      if (120:ℚ) ≤ v ∧ v ≤ 150 then "оптимальный"
      else if v < 120 then "слишком медленный" else "слишком быстрый" := by
    intro v
    rw [tempoRating, if_neg (by decide)]
    simp [OPTIMAL_WPM_MIN, OPTIMAL_WPM_MAX]
  simp only [e_en, e_ru]
  refine ⟨band_label_iff 120 150 w _ _ _ (by norm_num) (by decide) (by decide) (by decide),
    band_label_iff 120 150 w _ _ _ (by norm_num) (by decide) (by decide) (by decide),
    ?_, ?_, ?_, ?_⟩ <;>
    rw [if_pos (by norm_num)]

/-- C3 witness: a wpm of 130 is rated optimal. -/
theorem tempo_rating_boundaries_witness : tempoRating "en" 130 = "optimal" :=
  ((tempo_rating_boundaries 130).1.1).mpr (by norm_num)

/-- C8 counterexample: the claimed closed bands are wrong at the
boundary: at pitch variance exactly 30 the code labels high monotony, not
moderate (and likewise at energy variance exactly 0.015 it labels flat,
not medium), so the claimed partition with moderate on the closed band
30 to 60 is false. -/
theorem prosody_boundary_cex :
    ¬ ∀ pv ev : ℚ,
        (monotonyLabel "en" pv = "very low (lively sound)" ↔ 60 < pv) ∧
        (monotonyLabel "en" pv = "moderate" ↔ 30 ≤ pv ∧ pv ≤ 60) ∧
        (monotonyLabel "en" pv = "high (monotonous)" ↔ pv < 30) ∧
        (dynamicsLabel "en" ev = "pronounced dynamics" ↔ 3/100 < ev) ∧
        (dynamicsLabel "en" ev = "medium dynamics" ↔ 3/200 ≤ ev ∧ ev ≤ 3/100) ∧
        (dynamicsLabel "en" ev = "flat (almost no volume changes)" ↔ ev < 3/200) := by
  intro h
  have hm := ((h 30 0).2.1).mpr ⟨le_refl 30, by norm_num⟩
  have hc : monotonyLabel "en" (30:ℚ) = "high (monotonous)" := by
    rw [monotonyLabel, if_pos rfl, if_neg (by norm_num), if_neg (by norm_num)]
  rw [hc] at hm
  exact absurd hm (by decide)

/-- C8 (amended): the monotony label is lively exactly when the pitch
variance exceeds 60, moderate exactly when it lies in the half-open band
(30, 60], and high monotony exactly when it is at most 30; the dynamics
label is pronounced exactly when the energy variance exceeds 0.03, medium
exactly when it lies in (0.015, 0.03], and flat exactly when it is at most
0.015; the numeric cutoffs are the same for both languages. -/
theorem prosody_label_thresholds (pv ev : ℚ) :
    ((monotonyLabel "en" pv = "very low (lively sound)" ↔ 60 < pv) ∧
     (monotonyLabel "en" pv = "moderate" ↔ 30 < pv ∧ pv ≤ 60) ∧
     (monotonyLabel "en" pv = "high (monotonous)" ↔ pv ≤ 30) ∧
     (dynamicsLabel "en" ev = "pronounced dynamics" ↔ 3/100 < ev) ∧
     (dynamicsLabel "en" ev = "medium dynamics" ↔ 3/200 < ev ∧ ev ≤ 3/100) ∧
     (dynamicsLabel "en" ev = "flat (almost no volume changes)" ↔ ev ≤ 3/200)) ∧
    ((monotonyLabel "ru" pv = "очень низкая (живое звучание)" ↔ 60 < pv) ∧
     (monotonyLabel "ru" pv = "умеренная" ↔ 30 < pv ∧ pv ≤ 60) ∧
     (monotonyLabel "ru" pv = "высокая (монотонно)" ↔ pv ≤ 30) ∧
     (dynamicsLabel "ru" ev = "ярко выраженная динамика" ↔ 3/100 < ev) ∧
     (dynamicsLabel "ru" ev = "средняя динамика" ↔ 3/200 < ev ∧ ev ≤ 3/100) ∧
     (dynamicsLabel "ru" ev = "плоская (почти нет изменений громкости)" ↔ ev ≤ 3/200)) := by
  have em_en : ∀ v : ℚ, monotonyLabel "en" v =
      if (60:ℚ) < v then "very low (lively sound)"
      else if (30:ℚ) < v then "moderate" else "high (monotonous)" := by
    intro v; rw [monotonyLabel, if_pos rfl]
  have em_ru : ∀ v : ℚ, monotonyLabel "ru" v =
      if (60:ℚ) < v then "очень низкая (живое звучание)"
      else if (30:ℚ) < v then "умеренная" else "высокая (монотонно)" := by
    intro v; rw [monotonyLabel, if_neg (by decide)]
  have ed_en : ∀ v : ℚ, dynamicsLabel "en" v =
      if (3/100:ℚ) < v then "pronounced dynamics"
      else if (3/200:ℚ) < v then "medium dynamics"
      else "flat (almost no volume changes)" := by
    intro v; rw [dynamicsLabel, if_pos rfl]
  have ed_ru : ∀ v : ℚ, dynamicsLabel "ru" v =
      if (3/100:ℚ) < v then "ярко выраженная динамика"
      else if (3/200:ℚ) < v then "средняя динамика"
      else "плоская (почти нет изменений громкости)" := by
    intro v; rw [dynamicsLabel, if_neg (by decide)]
  simp only [em_en, em_ru, ed_en, ed_ru]
  obtain ⟨m1, m2, m3⟩ :=
    stacked_label_iff 60 30 pv "very low (lively sound)" "moderate" "high (monotonous)"
      (by norm_num) (by decide) (by decide) (by decide)
  obtain ⟨d1, d2, d3⟩ :=
    stacked_label_iff (3/100) (3/200) ev "pronounced dynamics" "medium dynamics"
      "flat (almost no volume changes)" (by norm_num) (by decide) (by decide) (by decide)
  obtain ⟨n1, n2, n3⟩ :=
    stacked_label_iff 60 30 pv "очень низкая (живое звучание)" "умеренная" "высокая (монотонно)"
      (by norm_num) (by decide) (by decide) (by decide)
  obtain ⟨e1, e2, e3⟩ :=
    stacked_label_iff (3/100) (3/200) ev "ярко выраженная динамика" "средняя динамика"
      "плоская (почти нет изменений громкости)" (by norm_num) (by decide) (by decide) (by decide)
  exact ⟨⟨m1, m2, m3, d1, d2, d3⟩, ⟨n1, n2, n3, e1, e2, e3⟩⟩

/-- C8 witness: a pitch variance of 70 is labelled lively. -/
theorem prosody_label_thresholds_witness :
    monotonyLabel "en" 70 = "very low (lively sound)" :=
  ((prosody_label_thresholds 70 0).1.1).mpr (by norm_num)

/-- C4: the short bucket of `analyze_speech` counts exactly the pause
durations with 0.3 at most d at most 1.0 (inclusive), the long bucket
exactly those with d above 1.5, and a duration strictly between 1.0 and
1.5 is counted in neither bucket. -/
theorem pause_bucket_thresholds (y : List ℚ) (text lang : String) (pauses : List ℚ) (d : ℚ) :
    (analyze_speech y text lang).short_pauses = shortPauseCount (detect_pauses y 16000) ∧
    (analyze_speech y text lang).long_pauses = longPauseCount (detect_pauses y 16000) ∧
    shortPauseCount (d :: pauses) = shortPauseCount pauses + (if 3/10 ≤ d ∧ d ≤ 1 then 1 else 0) ∧
    longPauseCount (d :: pauses) = longPauseCount pauses + (if 3/2 < d then 1 else 0) ∧
    (1 < d → d < 3/2 → shortPauseCount (d :: pauses) = shortPauseCount pauses ∧
      longPauseCount (d :: pauses) = longPauseCount pauses) := by
  refine ⟨rfl, rfl, ?_, ?_, ?_⟩
  · simp [shortPauseCount, List.countP_cons]
  · simp [longPauseCount, List.countP_cons]
  · intro h1 h2
    have hs : ¬ (3/10 ≤ d ∧ d ≤ 1) := by rintro ⟨_, h⟩; linarith
    have hl : ¬ (3/2 < d) := by linarith
    constructor
    · simp [shortPauseCount, List.countP_cons, hs]
    · simp [longPauseCount, List.countP_cons, hl]

/-- C4 witness: a pause of 1.2 seconds is counted in neither bucket. -/
theorem pause_bucket_thresholds_witness :
    shortPauseCount [(6/5 : ℚ)] = shortPauseCount [] ∧
    longPauseCount [(6/5 : ℚ)] = longPauseCount [] :=
  (pause_bucket_thresholds [] "" "en" [] (6/5)).2.2.2.2 (by norm_num) (by norm_num)

/-- C10: `update_user_stats` changes only the entry of the given user:
the total analysis counter of that user grows by exactly one, and the
stats of every other user key are unchanged. -/
theorem update_user_stats_frame (store : StatsStore) (u : ℕ)
    (analysis : SpeechAnalysis) (now : String) :
    ((update_user_stats store u analysis now u).getD initUserStats).total_analyses
      = ((store u).getD initUserStats).total_analyses + 1 ∧
    ∀ v : ℕ, v ≠ u → update_user_stats store u analysis now v = store v := by
  constructor
  · simp [update_user_stats]
  · intro v hv
    simp [update_user_stats, hv]

/-- C10 witness: updating user 1 in an empty store leaves user 2 absent. -/
theorem update_user_stats_frame_witness :
    update_user_stats (fun _ => none) 1 (analyze_speech [] "" "en") "2024-01-01 00:00" 2 = none :=
  (update_user_stats_frame (fun _ => none) 1 (analyze_speech [] "" "en") "2024-01-01 00:00").2
    2 (by decide)

/-- C9: a sentence of more than 20 words is listed verbatim among the
long sentences of `analyze_text_quality`, and a sentence of exactly 20
words is not listed. -/
theorem long_sentences_threshold (sentences : List String) (text : String) (s : String) :
    (s ∈ sentences → 20 < (pySplit s).length →
        s ∈ (analyze_text_quality sentences text).long_sentences) ∧
    ((pySplit s).length = 20 → s ∉ (analyze_text_quality sentences text).long_sentences) := by
  constructor
  · intro hs hl
    exact List.mem_filter.mpr ⟨hs, by simpa using hl⟩
  · intro h20 hmem
    have h := (List.mem_filter.mp hmem).2
    simp [h20] at h

/-- C9 witness: a 25-word sentence is listed and a 20-word sentence is
not. -/
theorem long_sentences_threshold_witness :
    sentence25 ∈ (analyze_text_quality [sentence25, sentence20] "").long_sentences ∧
    sentence20 ∉ (analyze_text_quality [sentence25, sentence20] "").long_sentences :=
  ⟨(long_sentences_threshold [sentence25, sentence20] "" sentence25).1 (by simp) (by decide),
   (long_sentences_threshold [sentence25, sentence20] "" sentence20).2 (by decide)⟩

/-- C1 (amended): every duration and count in the record returned by
`analyze_speech` is non-negative, and the words-per-minute value is 0
whenever the waveform duration is 0 (the division is only performed when
the duration is positive). -/
theorem analyze_speech_metrics_nonneg (y : List ℚ) (text lang : String) :
    0 ≤ (analyze_speech y text lang).duration_sec ∧
    0 ≤ (analyze_speech y text lang).words_per_minute ∧
    0 ≤ (analyze_speech y text lang).word_count ∧
    0 ≤ (analyze_speech y text lang).short_pauses ∧
    0 ≤ (analyze_speech y text lang).long_pauses ∧
    (speechDuration y = 0 → (analyze_speech y text lang).words_per_minute = 0) := by
  simp only [analyze_speech]
  refine ⟨?_, ?_, Nat.zero_le _, Nat.zero_le _, Nat.zero_le _, ?_⟩
  · refine pyRound_nonneg ?_ 2
    unfold speechDuration
    positivity
  · refine pyRound_nonneg ?_ 1
    split
    · unfold speechDuration
      positivity
    · exact le_rfl
  · intro h0
    rw [if_neg (by rw [h0]; exact lt_irrefl 0), pyRound_zero]

/-- C1 witness: the empty waveform has duration 0 and wpm 0. -/
theorem analyze_speech_metrics_nonneg_witness :
    (analyze_speech ([] : List ℚ) "" "en").words_per_minute = 0 :=
  (analyze_speech_metrics_nonneg [] "" "en").2.2.2.2.2 (by norm_num [speechDuration])

/-- C1 counterexample: a 160-sample waveform (duration 0.01 s, not 0)
with an empty transcript also gets wpm 0, so wpm being 0 does not imply
that the duration is 0: the claimed equivalence fails in that
direction. -/
theorem analyze_speech_wpm_zero_positive_duration :
    (analyze_speech (List.replicate 160 (0:ℚ)) "" "en").words_per_minute = 0 ∧
    speechDuration (List.replicate 160 (0:ℚ)) ≠ 0 := by
  have hd : speechDuration (List.replicate 160 (0:ℚ)) = 1/100 := by
    norm_num [speechDuration]
  constructor
  · simp only [analyze_speech]
    rw [hd]
    rw [if_pos (by norm_num)]
    have hw : wordTokens "" = [] := rfl
    rw [hw]
    norm_num [pyRound_zero]
  · rw [hd]
    norm_num

/-- C5 (amended): every pause duration returned by `detect_pauses` is
strictly greater than 0.25 seconds, and each returned duration equals
((run_length_in_frames - 1) * hop) / sample_rate, where
run_length_in_frames is the number of frames in the maximal run of
consecutive silent frames it was built from (hop size 512): the code
multiplies the index difference `prev - start`, which is one less than
the number of frames in the run. -/
theorem detect_pauses_span_characterization (y : List ℚ) (sr : ℚ) (d : ℚ)
    (hd : d ∈ detect_pauses y sr) :
    1/4 < d ∧ ∃ L ∈ runLengths (silenceFrames (rmsSq y)), 1 ≤ L ∧
      d = ((L : ℚ) - 1) * 512 / sr := by
  cases h : silenceFrames (rmsSq y) with
  | nil =>
      rw [detect_pauses, detect_pauses_energy_eq_nil _ sr h] at hd
      exact absurd hd (List.not_mem_nil d)
  | cons s rest =>
      rw [detect_pauses, detect_pauses_energy_eq_cons _ sr h, pausesLoop_eq_runsLoop] at hd
      obtain ⟨L, hL, hsome⟩ := List.mem_filterMap.mp hd
      have h1L : 1 ≤ L := runsLoop_mem_pos rest s s L hL
      have hcast : ((L - 1 : ℕ) : ℚ) = (L : ℚ) - 1 := by
        push_cast [h1L]
        ring
      split at hsome
      · obtain rfl : ((L - 1 : ℕ) : ℚ) * (512 / sr) = d := Option.some.inj hsome
        refine ⟨by assumption, L, ?_, h1L, ?_⟩
        · exact hL
        · rw [hcast, mul_div_assoc]
      · exact absurd hsome (by simp)

/-- C5 witness: the span of 1 second returned on the concrete waveform
`yRun` at sample rate 512 satisfies the characterization. -/
theorem detect_pauses_span_characterization_witness :
    1/4 < (1:ℚ) ∧ ∃ L ∈ runLengths (silenceFrames (rmsSq yRun)), 1 ≤ L ∧
      (1:ℚ) = ((L : ℚ) - 1) * 512 / 512 :=
  detect_pauses_span_characterization yRun 512 1
    (by rw [detect_pauses_yRun]; exact List.mem_singleton.mpr rfl)

/-- C5 counterexample: on `yRun` at sample rate 512 the detector returns
the single duration 1, but the single maximal silent run has 2 frames,
and 2 * 512 / 512 = 2, not 1: the returned duration is not
run_length * hop / sample_rate. -/
theorem detect_pauses_run_length_cex :
    ¬ ∀ d ∈ detect_pauses yRun 512, ∃ L ∈ runLengths (silenceFrames (rmsSq yRun)),
        d = (L : ℚ) * 512 / 512 := by
  intro h
  obtain ⟨L, hL, he⟩ := h 1 (by rw [detect_pauses_yRun]; exact List.mem_singleton.mpr rfl)
  rw [runLengths_yRun] at hL
  obtain rfl : L = 2 := List.mem_singleton.mp hL
  norm_num at he

/-- C6: `detect_pauses` is a total function of the waveform (the
embedding is purely numeric), and the empty waveform yields the empty
pause list. -/
theorem detect_pauses_empty_waveform : detect_pauses ([] : List ℚ) 16000 = [] := by
  have h := detect_pauses_replicate_zero 0 16000
  simpa using h

/-- C7 (amended): the silence comparison is strict, so no energy value
equal to the threshold counts as silent: an energy sequence of equal
frame energies has no silent frames and yields no pause spans, and an
entirely silent (all-zero) recording likewise yields the empty list
rather than one very long span. -/
theorem detect_pauses_equal_energy (c : ℚ) (n : ℕ) (sr : ℚ) :
    silenceFrames (List.replicate n c) = [] ∧
    detect_pauses_energy (List.replicate n c) sr = [] ∧
    detect_pauses (List.replicate n (0:ℚ)) sr = [] :=
  ⟨silenceFrames_replicate c n, detect_pauses_energy_replicate c n sr,
    detect_pauses_replicate_zero n sr⟩

/-- C7 counterexample: the non-empty all-silent waveform of 2048 zero
samples has no silent frames at all (0 of its 5 frames, not at least
15 percent) and `detect_pauses` returns the empty list, not at least one
span. -/
theorem detect_pauses_all_silent_cex :
    List.replicate 2048 (0:ℚ) ≠ [] ∧
    (rmsSq (List.replicate 2048 (0:ℚ))).length = 5 ∧
    silenceFrames (rmsSq (List.replicate 2048 (0:ℚ))) = [] ∧
    detect_pauses (List.replicate 2048 (0:ℚ)) 16000 = [] := by
  refine ⟨?_, ?_, ?_, detect_pauses_replicate_zero 2048 16000⟩
  · intro hnil
    have hlen := congrArg List.length hnil
    rw [List.length_replicate] at hlen
    exact absurd hlen (by norm_num)
  · rw [rmsSq_replicate_zero, List.length_replicate]
  · rw [rmsSq_replicate_zero]
    exact silenceFrames_replicate 0 (1 + 2048 / 512)

end SpeechBot
